import Mathlib

/-!
# Verification of the mcbuild shape rasterizers

Shallow embedding of `src/util.py` (the geometry generators and the task
dispatcher `generate_blocks_from_task`) and of the bounding-box
computation of `generators/building_generator.py`.

Conventions of the embedding:
* Python integers are `Int` (they are unbounded in Python as well).
* All generators except `generate_line` compute purely on integers and
  are embedded exactly.  `generate_line` runs its walk on CPython
  doubles; here the walk state is carried as exact rationals `ℚ`, which
  is the intended real-number semantics of the code and agrees with the
  IEEE evaluation only while every value is exactly representable in
  binary64.  CPython rounds larger integers on conversion
  (`float(2^53 + 1) = 2^53`) and raises `OverflowError` near `1e309`, so
  `generate_line` here is an exact-arithmetic idealization, not a model
  of the double rounding; see its doc comment.  Python's `round` (round
  half to even, exact on the rational value) is `pyRound`.
* A Python value that can appear in a task's `tool` or `args` is `PVal`
  (int, bool, string, or an opaque unhashable container); Python
  truthiness is `PVal.truthy` and the int-coercion used by arithmetic
  and `range` (a bool counts as 0/1; a string or container raises
  `TypeError`) is `PVal.asInt`.
* `range(a, b)` over Python ints is `pyRange a b`, and `range(n)` is
  `pyRange 0 n` (empty when the bound is not positive, as in Python).
* Fallible Python code (the keyword-argument splat and argument
  coercions of the dispatcher) returns `Except String`.  The `…Kwargs`
  wrappers coerce an argument exactly when the corresponding expression
  in the generator body is reached, so that e.g. `cube` with
  `size_x = 0` and a non-numeric `x` returns `[]` as CPython does.
-/

/-- A Python value as it can appear in a task's `tool` or `args`: an int,
a bool, a string, or an unhashable container (list/dict/set).  An
unhashable value is opaque except for its truthiness, which is the only
attribute of it the embedded code can observe without raising: using it
as a dict key (`tool_name in tool_map`) raises
`TypeError: unhashable type`, and arithmetic on it raises `TypeError`.
Floats are outside this universe: the task files are produced by the
planner's JSON pipeline with integer coordinates. -/
inductive PVal where
  | pInt (n : Int)
  | pBool (b : Bool)
  | pStr (s : String)
  | pUnhashable (truthiness : Bool)
deriving DecidableEq, Repr

/-- A placed block, as the dicts `{'x':…,'y':…,'z':…,'block_type':…}`
built by every generator in `src/util.py`.  Coordinates are integers;
the `block_type` field is an arbitrary `PVal`, since the generators
store whatever the `args` mapping supplied without inspecting it. -/
structure Block where
  x : Int
  y : Int
  z : Int
  block_type : PVal
deriving DecidableEq, Repr

/-- Python `range(a, b)` over ints, as the list `[a, a+1, …, b-1]`
(empty when `b ≤ a`). -/
def pyRange (a b : Int) : List Int :=
  (List.range (b - a).toNat).map (fun n : Nat => a + (n : Int))

/-- `generate_cube` from `src/util.py`: triple loop
`for i in range(size_x): for j in range(size_y): for k in range(size_z)`,
keeping a cell when `not hollow or is_shell`. -/
def generate_cube (hollow : Bool) (x y z size_x size_y size_z : Int)
    (block_type : PVal) : List Block :=
  (pyRange 0 size_x).flatMap fun i =>
    (pyRange 0 size_y).flatMap fun j =>
      (pyRange 0 size_z).filterMap fun k =>
        let is_shell : Bool :=
          i = 0 ∨ i = size_x - 1 ∨ j = 0 ∨ j = size_y - 1 ∨
            k = 0 ∨ k = size_z - 1
        if !hollow || is_shell then
          some ⟨x + i, y + j, z + k, block_type⟩
        else
          none

example :
    (generate_cube false 0 0 0 2 2 1 (.pStr "stone")).length = 4 := by decide

example :
    (generate_cube true 0 0 0 3 3 3 (.pStr "stone")).length = 26 := by decide

/-- Python's `round` on an exact rational: round to nearest, ties to
even (banker's rounding, the semantics of `round` on Python floats). -/
def pyRound (q : ℚ) : Int :=
  if q - ⌊q⌋ < 1/2 then ⌊q⌋
  else if (1 : ℚ)/2 < q - ⌊q⌋ then ⌊q⌋ + 1
  else if ⌊q⌋ % 2 = 0 then ⌊q⌋ else ⌊q⌋ + 1

/-- The body of `generate_line`'s walk:
`for _ in range(int(steps) + 1): append(round(x), round(y), round(z)); x += x_inc; …`.
The source accumulates IEEE doubles; here the state is carried as exact
rationals, the intended real-number semantics.  The two agree only while
every intermediate value is exactly representable in binary64: CPython's
double additions round, so emitted blocks can differ from the exact
samples outside that regime. -/
def lineLoop (block_type : PVal) (x_inc y_inc z_inc : ℚ) :
    Nat → ℚ → ℚ → ℚ → List Block
  | 0, _, _, _ => []
  | n + 1, x, y, z =>
    ⟨pyRound x, pyRound y, pyRound z, block_type⟩ ::
      lineLoop block_type x_inc y_inc z_inc n (x + x_inc) (y + y_inc) (z + z_inc)

/-- `generate_line` from `src/util.py`: `steps = max(|dx|,|dy|,|dz|)`
(computed exactly, on ints); one block at the start when `steps == 0`,
otherwise `steps + 1` samples accumulated with increments `d/steps`.
Exact-arithmetic idealization of the source's double-precision walk: the
source converts with `float(x1)`, which rounds integers above `2^53`
(`float(2^53 + 1) = 2^53`) and raises `OverflowError` near `1e309`, and
its additions round to binary64; this definition does neither, so it
describes the intended samples, not the IEEE evaluation. -/
def generate_line (x1 y1 z1 x2 y2 z2 : Int) (block_type : PVal) : List Block :=
  let dx := x2 - x1
  let dy := y2 - y1
  let dz := z2 - z1
  let steps := max |dx| (max |dy| |dz|)
  if steps = 0 then [⟨x1, y1, z1, block_type⟩]
  else
    lineLoop block_type ((dx : ℚ) / steps) ((dy : ℚ) / steps) ((dz : ℚ) / steps)
      (steps.toNat + 1) (x1 : ℚ) (y1 : ℚ) (z1 : ℚ)

/-- `generate_sphere` from `src/util.py`: triple loop over
`range(-radius, radius + 1)`, keeping offsets with
`dist_sq <= r_sq` and, when hollow, `dist_sq > inner_r_sq` with
`inner_r_sq = (radius-1)²`. -/
def generate_sphere (hollow : Bool) (x y z radius : Int)
    (block_type : PVal) : List Block :=
  let r_sq := radius * radius
  let inner_r_sq := (radius - 1) * (radius - 1)
  (pyRange (-radius) (radius + 1)).flatMap fun i =>
    (pyRange (-radius) (radius + 1)).flatMap fun j =>
      (pyRange (-radius) (radius + 1)).filterMap fun k =>
        let dist_sq := i * i + j * j + k * k
        if dist_sq ≤ r_sq then
          if !hollow || decide (inner_r_sq < dist_sq) then
            some ⟨x + i, y + j, z + k, block_type⟩
          else none
        else none

/-- `generate_cylinder` from `src/util.py`: `for j in range(height)`, then
the 2-D disc test `i*i + k*k <= r_sq` (hollow keeps `> (radius-1)²`). -/
def generate_cylinder (hollow : Bool) (x y z radius height : Int)
    (block_type : PVal) : List Block :=
  let r_sq := radius * radius
  let inner_r_sq := (radius - 1) * (radius - 1)
  (pyRange 0 height).flatMap fun j =>
    (pyRange (-radius) (radius + 1)).flatMap fun i =>
      (pyRange (-radius) (radius + 1)).filterMap fun k =>
        let dist_sq := i * i + k * k
        if dist_sq ≤ r_sq then
          if !hollow || decide (inner_r_sq < dist_sq) then
            some ⟨x + i, y + j, z + k, block_type⟩
          else none
        else none

/-- One layer of `generate_pyramid`: `for i in range(layer_size): for k in
range(layer_size)`, blocks at `(x+i+offset, y+j, z+k+offset)` with
`offset = j`. -/
def pyramidLayer (x y z : Int) (block_type : PVal) (j layer_size : Int) :
    List Block :=
  (pyRange 0 layer_size).flatMap fun i =>
    (pyRange 0 layer_size).map fun k =>
      ⟨x + i + j, y + j, z + k + j, block_type⟩

/-- The `for j in range(height)` loop of `generate_pyramid`, with the
`if layer_size <= 0: break` exit; the `Nat` argument is the number of
iterations remaining. -/
def pyramidLoop (x y z base_size : Int) (block_type : PVal) :
    Nat → Int → List Block
  | 0, _ => []
  | n + 1, j =>
    let layer_size := base_size - 2 * j
    if layer_size ≤ 0 then []
    else
      pyramidLayer x y z block_type j layer_size ++
        pyramidLoop x y z base_size block_type n (j + 1)

/-- `generate_pyramid` from `src/util.py`: `height = (base_size + 1) // 2`
(Python floor division), then the layer loop. -/
def generate_pyramid (x y z base_size : Int) (block_type : PVal) :
    List Block :=
  pyramidLoop x y z base_size block_type ((base_size + 1).fdiv 2).toNat 0

/-- `generate_circle` from `src/util.py`: the 2-D disc at height `y`. -/
def generate_circle (hollow : Bool) (x y z radius : Int)
    (block_type : PVal) : List Block :=
  let r_sq := radius * radius
  let inner_r_sq := (radius - 1) * (radius - 1)
  (pyRange (-radius) (radius + 1)).flatMap fun i =>
    (pyRange (-radius) (radius + 1)).filterMap fun k =>
      let dist_sq := i * i + k * k
      if dist_sq ≤ r_sq then
        if !hollow || decide (inner_r_sq < dist_sq) then
          some ⟨x + i, y, z + k, block_type⟩
        else none
      else none

/-- `generate_arch` from `src/util.py`: `for k in range(width): for i in
range(-radius, radius+1): for j in range(radius+1)`, keeping points with
`abs(i*i + j*j - radius*radius) < radius`. -/
def generate_arch (x y z radius width : Int) (block_type : PVal) :
    List Block :=
  (pyRange 0 width).flatMap fun k =>
    (pyRange (-radius) (radius + 1)).flatMap fun i =>
      (pyRange 0 (radius + 1)).filterMap fun j =>
        if |i * i + j * j - radius * radius| < radius then
          some ⟨x + i, y + j, z + k, block_type⟩
        else none

example :
    generate_line 0 0 0 4 0 0 (.pStr "cobblestone") =
      [⟨0, 0, 0, .pStr "cobblestone"⟩, ⟨1, 0, 0, .pStr "cobblestone"⟩,
       ⟨2, 0, 0, .pStr "cobblestone"⟩, ⟨3, 0, 0, .pStr "cobblestone"⟩,
       ⟨4, 0, 0, .pStr "cobblestone"⟩] := by
  norm_num [generate_line, lineLoop, pyRound]

example : (generate_sphere false 0 0 0 0 (.pStr "s")) =
    [⟨0, 0, 0, .pStr "s"⟩] := by decide

example : (generate_sphere true 0 0 0 0 (.pStr "s")) = [] := by decide

example : (generate_pyramid 0 0 0 3 (.pStr "s")).length = 10 := by decide

/-! ## The task dispatcher `generate_blocks_from_task` -/

/-- Python truthiness of a `PVal`, as used by `if not hollow or is_shell`
(never raises; an unhashable container carries its truthiness). -/
def PVal.truthy : PVal → Bool
  | .pInt n => n ≠ 0
  | .pBool b => b
  | .pStr s => s ≠ ""
  | .pUnhashable b => b

/-- Coercion of a `PVal` to an int as Python arithmetic and `range` use
it: a bool counts as 0/1; a string or an unhashable container raises
`TypeError` (`'a' - 1`, `range('a')`, `'a' * 'a'`, `[] + 1`, … all
raise).  The `…Kwargs` wrappers below invoke this exactly when the
corresponding expression in the generator body is reached. -/
def PVal.asInt : PVal → Except String Int
  | .pInt n => .ok n
  | .pBool b => .ok (if b then 1 else 0)
  | .pStr _ => .error "TypeError: unsupported operand type"
  | .pUnhashable _ => .error "TypeError: unsupported operand type"

/-- `kwargs.get(key, default)` over a Python dict, modelled as an
association list with distinct keys. -/
def pyGet (kw : List (String × PVal)) (key : String) (default : PVal) : PVal :=
  match kw.find? (fun p => p.1 = key) with
  | some p => p.2
  | none => default

/-- `key in kwargs`. -/
def hasKey (kw : List (String × PVal)) (key : String) : Bool :=
  kw.any (fun p => p.1 = key)

/-- The value of a task's `args` key: either a mapping (usable with `**`)
or some other Python value (on which `**` raises `TypeError`). -/
inductive PyArgs where
  | mapping (kw : List (String × PVal))
  | notMapping
deriving DecidableEq, Repr

/-- A value passed to `generate_blocks_from_task`: either not a dict at
all, or a dict whose `tool` key (if present) holds any Python value and
whose `args` key (if present) may or may not be a mapping. -/
inductive PyTask where
  | notDict
  | dict (tool : Option PVal) (args : Option PyArgs)
deriving DecidableEq, Repr

/-- `generate_cube(hollow, **kwargs)`.  The `kwargs.get` calls never
raise; coercions happen where the body evaluates them: `range(size_x)`
always, `range(size_y)` only when the outer loop runs (`size_x ≥ 1`),
`range(size_z)` when both outer loops run, and `x + i` / `y + j` /
`z + k` only when the innermost body is reached — which, sizes being
positive, always happens (the corner cell is shell).  So e.g.
`size_x = 0` with a non-numeric `x` returns `[]`, as in CPython. -/
def cubeKwargs (hollow : Bool) (kw : List (String × PVal)) :
    Except String (List Block) := do
  let size_x ← (pyGet kw "size_x" (.pInt 1)).asInt
  if size_x ≤ 0 then return []
  let size_y ← (pyGet kw "size_y" (.pInt 1)).asInt
  if size_y ≤ 0 then return []
  let size_z ← (pyGet kw "size_z" (.pInt 1)).asInt
  if size_z ≤ 0 then return []
  let x ← (pyGet kw "x" (.pInt 0)).asInt
  let y ← (pyGet kw "y" (.pInt 0)).asInt
  let z ← (pyGet kw "z" (.pInt 0)).asInt
  let block_type := pyGet kw "block_type" (.pStr "stone")
  pure (generate_cube hollow x y z size_x size_y size_z block_type)

/-- `generate_line(**kwargs)`.  The body computes
`dx, dy, dz = x2 - x1, y2 - y1, z2 - z1` before any loop, so all six
endpoint values are coerced unconditionally. -/
def lineKwargs (kw : List (String × PVal)) : Except String (List Block) := do
  let x1 ← (pyGet kw "x1" (.pInt 0)).asInt
  let y1 ← (pyGet kw "y1" (.pInt 0)).asInt
  let z1 ← (pyGet kw "z1" (.pInt 0)).asInt
  let x2 ← (pyGet kw "x2" (.pInt 0)).asInt
  let y2 ← (pyGet kw "y2" (.pInt 0)).asInt
  let z2 ← (pyGet kw "z2" (.pInt 0)).asInt
  let block_type := pyGet kw "block_type" (.pStr "stone")
  pure (generate_line x1 y1 z1 x2 y2 z2 block_type)

/-- `generate_sphere(hollow, **kwargs)`.  `r_sq = radius * radius` runs
before the loops, so `radius` is coerced unconditionally; `x + i` etc.
are reached iff some cell passes the filters, i.e. unless `radius < 0`
(empty ranges) or `radius = 0` with `hollow` (the only cell is rejected),
in which case `[]` is returned without touching `x`, `y`, `z`. -/
def sphereKwargs (hollow : Bool) (kw : List (String × PVal)) :
    Except String (List Block) := do
  let radius ← (pyGet kw "radius" (.pInt 5)).asInt
  if radius < 0 then return []
  if hollow ∧ radius = 0 then return []
  let x ← (pyGet kw "x" (.pInt 0)).asInt
  let y ← (pyGet kw "y" (.pInt 0)).asInt
  let z ← (pyGet kw "z" (.pInt 0)).asInt
  let block_type := pyGet kw "block_type" (.pStr "stone")
  pure (generate_sphere hollow x y z radius block_type)

/-- `generate_cylinder(hollow, **kwargs)`.  `r_sq` is computed before
`range(height)`, so `radius` is coerced first, then `height`; the body
is reached iff `height ≥ 1`, `radius ≥ 0` and not (`hollow` with
`radius = 0`). -/
def cylinderKwargs (hollow : Bool) (kw : List (String × PVal)) :
    Except String (List Block) := do
  let radius ← (pyGet kw "radius" (.pInt 5)).asInt
  let height ← (pyGet kw "height" (.pInt 10)).asInt
  if height ≤ 0 then return []
  if radius < 0 then return []
  if hollow ∧ radius = 0 then return []
  let x ← (pyGet kw "x" (.pInt 0)).asInt
  let y ← (pyGet kw "y" (.pInt 0)).asInt
  let z ← (pyGet kw "z" (.pInt 0)).asInt
  let block_type := pyGet kw "block_type" (.pStr "stone")
  pure (generate_cylinder hollow x y z radius height block_type)

/-- `generate_pyramid(**kwargs)`.  `height = (base_size + 1) // 2` runs
before the loop, so `base_size` is coerced unconditionally; the body is
reached iff `base_size ≥ 1` (then `height ≥ 1` and the first layer has
positive size). -/
def pyramidKwargs (kw : List (String × PVal)) : Except String (List Block) := do
  let base_size ← (pyGet kw "base_size" (.pInt 10)).asInt
  if base_size ≤ 0 then return []
  let x ← (pyGet kw "x" (.pInt 0)).asInt
  let y ← (pyGet kw "y" (.pInt 0)).asInt
  let z ← (pyGet kw "z" (.pInt 0)).asInt
  let block_type := pyGet kw "block_type" (.pStr "sandstone")
  pure (generate_pyramid x y z base_size block_type)

/-- `generate_circle(hollow, **kwargs)`.  Same reachability as the
sphere.  The source stores `y` in the block dict without arithmetic; a
non-int `y` would flow into a block coordinate, which the integer
`Block` universe excludes, so the embedding coerces `y` like the
arithmetic arguments. -/
def circleKwargs (hollow : Bool) (kw : List (String × PVal)) :
    Except String (List Block) := do
  let radius ← (pyGet kw "radius" (.pInt 5)).asInt
  if radius < 0 then return []
  if hollow ∧ radius = 0 then return []
  let x ← (pyGet kw "x" (.pInt 0)).asInt
  let y ← (pyGet kw "y" (.pInt 0)).asInt
  let z ← (pyGet kw "z" (.pInt 0)).asInt
  let block_type := pyGet kw "block_type" (.pStr "stone")
  pure (generate_circle hollow x y z radius block_type)

/-- `generate_arch(**kwargs)`.  `range(width)` is the outermost loop, so
`width` is coerced first; `radius` only when `width ≥ 1`; the body
`x + i` is reached iff additionally `radius ≥ 1` (for `radius ≤ 0` the
semicircle test `abs(i²+j²-r²) < r` never holds). -/
def archKwargs (kw : List (String × PVal)) : Except String (List Block) := do
  let width ← (pyGet kw "width" (.pInt 3)).asInt
  if width ≤ 0 then return []
  let radius ← (pyGet kw "radius" (.pInt 5)).asInt
  if radius ≤ 0 then return []
  let x ← (pyGet kw "x" (.pInt 0)).asInt
  let y ← (pyGet kw "y" (.pInt 0)).asInt
  let z ← (pyGet kw "z" (.pInt 0)).asInt
  let block_type := pyGet kw "block_type" (.pStr "stone_bricks")
  pure (generate_arch x y z radius width block_type)

/-- The ten tool names of `tool_map` in `generate_blocks_from_task`. -/
def recognizedTool (s : String) : Bool :=
  s = "cube" || s = "line" || s = "sphere" || s = "hollow_cube" ||
    s = "hollow_sphere" || s = "cylinder" || s = "pyramid" ||
    s = "circle" || s = "arch" || s = "single_block"

/-- Calling `tool_map[name](**kw)` for a recognized `name`.  The entries
`hollow_cube`, `hollow_sphere` and `single_block` are lambdas that pass
`hollow=True` resp. `size_x=1, size_y=1, size_z=1` alongside `**kwargs`,
so a colliding key in `kwargs` raises `TypeError: got multiple values`.
For the plain entries, a `hollow` key in `kwargs` simply binds the
`hollow` parameter (with Python truthiness applied where the generator
tests it). -/
def callTool (name : String) (kw : List (String × PVal)) :
    Except String (List Block) :=
  if name = "cube" then cubeKwargs (pyGet kw "hollow" (.pBool false)).truthy kw
  else if name = "line" then lineKwargs kw
  else if name = "sphere" then
    sphereKwargs (pyGet kw "hollow" (.pBool false)).truthy kw
  else if name = "hollow_cube" then
    if hasKey kw "hollow" then
      .error "TypeError: got multiple values for keyword argument hollow"
    else cubeKwargs true kw
  else if name = "hollow_sphere" then
    if hasKey kw "hollow" then
      .error "TypeError: got multiple values for keyword argument hollow"
    else sphereKwargs true kw
  else if name = "cylinder" then
    cylinderKwargs (pyGet kw "hollow" (.pBool false)).truthy kw
  else if name = "pyramid" then pyramidKwargs kw
  else if name = "circle" then
    circleKwargs (pyGet kw "hollow" (.pBool false)).truthy kw
  else if name = "arch" then archKwargs kw
  else if name = "single_block" then
    if hasKey kw "size_x" || hasKey kw "size_y" || hasKey kw "size_z" then
      .error "TypeError: got multiple values for keyword argument size"
    else do
      let x ← (pyGet kw "x" (.pInt 0)).asInt
      let y ← (pyGet kw "y" (.pInt 0)).asInt
      let z ← (pyGet kw "z" (.pInt 0)).asInt
      let block_type := pyGet kw "block_type" (.pStr "stone")
      pure (generate_cube (pyGet kw "hollow" (.pBool false)).truthy
        x y z 1 1 1 block_type)
  else .ok []

/-- `generate_blocks_from_task` from `src/util.py`: returns `[]` for a
non-dict task and for a `tool` value that is absent, a hashable
non-string (int/bool), or an unrecognized string; raises `TypeError` for
an unhashable `tool` value (the membership test `tool_name in tool_map`
hashes it); otherwise calls the tool with `**task.get('args', {})`
(which raises `TypeError` when the `args` value is not a mapping). -/
def generate_blocks_from_task : PyTask → Except String (List Block)
  | .notDict => .ok []
  | .dict tool args =>
    match tool with
    | some (.pUnhashable _) => .error "TypeError: unhashable type"
    | some (.pStr name) =>
      if recognizedTool name then
        match args.getD (.mapping []) with
        | .notMapping => .error "TypeError: argument after ** must be a mapping"
        | .mapping kw => callTool name kw
      else .ok []
    | _ => .ok []

example :
    generate_blocks_from_task
      (.dict (some (.pStr "hollow_cube"))
        (some (.mapping [("hollow", .pBool true)]))) =
      .error "TypeError: got multiple values for keyword argument hollow" := by
  rfl

example :
    generate_blocks_from_task (.dict (some (.pStr "house")) none) = .ok [] := by
  rfl

example :
    callTool "cube" [("size_x", .pInt 0), ("x", .pStr "abc")] = .ok [] := by
  rfl

example :
    callTool "cube" [("x", .pStr "abc")] =
      .error "TypeError: unsupported operand type" := by
  rfl

example :
    callTool "hollow_sphere" [("radius", .pInt 0), ("x", .pUnhashable true)] =
      .ok [] := by
  rfl

example :
    callTool "arch" [("width", .pInt 0), ("radius", .pStr "abc")] = .ok [] := by
  rfl

/-! ## Bounding box (`BuildingGenerator.generate`) -/

/-- The spatial metadata computed at the end of
`generators/building_generator.py`: per-axis min/max of the block list and
`dimension = max - min + 1`, all zero for an empty list. -/
structure BBox where
  min_x : Int
  min_y : Int
  min_z : Int
  max_x : Int
  max_y : Int
  max_z : Int
  width : Int
  height : Int
  depth : Int
deriving DecidableEq, Repr

/-- The bounding-box loop of `BuildingGenerator.generate`.  The
`float('inf')` / `float('-inf')` seeds followed by `min` / `max` over a
nonempty list are folded starting from the first element (`min(inf, v) = v`);
the empty list takes the explicit all-zero branch of the source. -/
def bounding_box : List Block → BBox
  | [] => ⟨0, 0, 0, 0, 0, 0, 0, 0, 0⟩
  | b :: rest =>
    let min_x := rest.foldl (fun a c => min a c.x) b.x
    let min_y := rest.foldl (fun a c => min a c.y) b.y
    let min_z := rest.foldl (fun a c => min a c.z) b.z
    let max_x := rest.foldl (fun a c => max a c.x) b.x
    let max_y := rest.foldl (fun a c => max a c.y) b.y
    let max_z := rest.foldl (fun a c => max a c.z) b.z
    ⟨min_x, min_y, min_z, max_x, max_y, max_z,
     max_x - min_x + 1, max_y - min_y + 1, max_z - min_z + 1⟩

/-! ## Basic lemmas about the embedding -/

lemma mem_pyRange {lo hi t : Int} : t ∈ pyRange lo hi ↔ lo ≤ t ∧ t < hi := by
  simp only [pyRange, List.mem_map, List.mem_range]
  constructor
  · rintro ⟨n, hn, rfl⟩
    omega
  · rintro ⟨h1, h2⟩
    exact ⟨(t - lo).toNat, by omega, by omega⟩

lemma length_pyRange (lo hi : Int) : (pyRange lo hi).length = (hi - lo).toNat := by
  simp [pyRange]

lemma nodup_pyRange (lo hi : Int) : (pyRange lo hi).Nodup := by
  refine List.Nodup.map ?_ (List.nodup_range _)
  intro m n h
  dsimp only at h
  omega

lemma pyRange_eq_nil {lo hi : Int} (h : hi ≤ lo) : pyRange lo hi = [] := by
  have : (hi - lo).toNat = 0 := by omega
  simp [pyRange, this]

/-- A `filterMap` whose function is an if-then-some-else-none is the map
over the filtered list. -/
lemma filterMap_ite_eq_map_filter {α β : Type} (p : α → Bool) (f : α → β)
    (l : List α) :
    (l.filterMap fun a => if p a then some (f a) else none) =
      (l.filter p).map f := by
  induction l with
  | nil => rfl
  | cons a l ih =>
    by_cases h : p a <;> simp [List.filterMap_cons, List.filter_cons, h, ih]

/-- Length of a `flatMap` whose inner lists all have the same length. -/
lemma length_flatMap_const {α β : Type} (l : List α) (f : α → List β) (m : ℕ)
    (h : ∀ a ∈ l, (f a).length = m) :
    (l.flatMap f).length = l.length * m := by
  induction l with
  | nil => simp
  | cons a l ih =>
    simp only [List.flatMap_cons, List.length_append, List.length_cons]
    rw [h a (by simp), ih (fun a ha => h a (by simp [ha]))]
    ring

/-! ## C9: solid cube cardinality and coverage -/

/-- With `hollow = False`, the cell filter `not hollow or is_shell` is
trivially true and the cube is the full triple product. -/
lemma generate_cube_false (x y z a b c : Int) (bt : PVal) :
    generate_cube false x y z a b c bt =
      (pyRange 0 a).flatMap fun i =>
        (pyRange 0 b).flatMap fun j =>
          (pyRange 0 c).map fun k => ⟨x + i, y + j, z + k, bt⟩ := by
  simp only [generate_cube, Bool.not_false, Bool.true_or, if_true]
  exact List.flatMap_congr fun i _ => List.flatMap_congr fun j _ =>
    List.filterMap_eq_map _ ▸ rfl

lemma mem_generate_cube_false {x y z a b c : Int} {bt : PVal} {blk : Block} :
    blk ∈ generate_cube false x y z a b c bt ↔
      x ≤ blk.x ∧ blk.x < x + a ∧ y ≤ blk.y ∧ blk.y < y + b ∧
        z ≤ blk.z ∧ blk.z < z + c ∧ blk.block_type = bt := by
  obtain ⟨bx, b_y, bz, bbt⟩ := blk
  simp only [generate_cube_false, List.mem_flatMap, List.mem_map, mem_pyRange]
  constructor
  · rintro ⟨i, hi, j, hj, k, hk, h⟩
    simp only [Block.mk.injEq] at h
    obtain ⟨hx, hy, hz, hbt⟩ := h
    exact ⟨by omega, by omega, by omega, by omega, by omega, by omega,
      hbt.symm⟩
  · rintro ⟨h1, h2, h3, h4, h5, h6, rfl⟩
    refine ⟨bx - x, by omega, b_y - y, by omega, bz - z, by omega, ?_⟩
    simp only [Block.mk.injEq, and_true]
    refine ⟨by omega, by omega, by omega⟩

lemma nodup_generate_cube_false (x y z a b c : Int) (bt : PVal) :
    (generate_cube false x y z a b c bt).Nodup := by
  rw [generate_cube_false]
  rw [List.nodup_flatMap]
  refine ⟨fun i _ => ?_, ?_⟩
  · rw [List.nodup_flatMap]
    refine ⟨fun j _ => ?_, ?_⟩
    · refine List.Nodup.map ?_ (nodup_pyRange _ _)
      intro k1 k2 h
      simpa using congrArg Block.z h
    · refine (nodup_pyRange 0 b).imp ?_
      intro j1 j2 hne blk h1 h2
      simp only [List.mem_map] at h1 h2
      obtain ⟨k1, _, rfl⟩ := h1
      obtain ⟨k2, _, h⟩ := h2
      have hy := congrArg Block.y h
      simp only at hy
      exact hne (by omega)
  · refine (nodup_pyRange 0 a).imp ?_
    intro i1 i2 hne blk h1 h2
    simp only [List.mem_flatMap, List.mem_map] at h1 h2
    obtain ⟨j1, _, k1, _, rfl⟩ := h1
    obtain ⟨j2, _, k2, _, h⟩ := h2
    have hx := congrArg Block.x h
    simp only at hx
    exact hne (by omega)

lemma length_generate_cube_false (x y z a b c : Int) (bt : PVal) :
    (generate_cube false x y z a b c bt).length =
      a.toNat * b.toNat * c.toNat := by
  rw [generate_cube_false]
  rw [length_flatMap_const _ _ (b.toNat * c.toNat) fun i _ => ?_]
  · rw [length_pyRange]
    simp [Nat.mul_assoc]
  · rw [length_flatMap_const _ _ c.toNat fun j _ => ?_]
    · rw [length_pyRange]
      simp
    · rw [List.length_map, length_pyRange]
      simp

/-- C9: for all positive sizes `a`, `b`, `c`, the solid cube rasterizer
(`hollow = False`) produces exactly `a·b·c` blocks, they are pairwise
distinct, and they cover each cell of
`[x, x+a) × [y, y+b) × [z, z+c)` exactly once. -/
theorem solid_cube_card_and_coverage
    (x y z a b c : Int) (bt : PVal) (ha : 0 < a) (hb : 0 < b) (hc : 0 < c) :
    ((generate_cube false x y z a b c bt).length : Int) = a * b * c ∧
      (generate_cube false x y z a b c bt).Nodup ∧
      ∀ blk : Block, blk ∈ generate_cube false x y z a b c bt ↔
        x ≤ blk.x ∧ blk.x < x + a ∧ y ≤ blk.y ∧ blk.y < y + b ∧
          z ≤ blk.z ∧ blk.z < z + c ∧ blk.block_type = bt := by
  refine ⟨?_, nodup_generate_cube_false x y z a b c bt,
    fun _ => mem_generate_cube_false⟩
  rw [length_generate_cube_false]
  push_cast [Int.toNat_of_nonneg ha.le, Int.toNat_of_nonneg hb.le,
    Int.toNat_of_nonneg hc.le]
  ring

theorem solid_cube_card_and_coverage_witness :
    ((generate_cube false 1 2 3 2 3 4 (.pStr "stone")).length : Int) =
        2 * 3 * 4 ∧
      (generate_cube false 1 2 3 2 3 4 (.pStr "stone")).Nodup ∧
      ∀ blk : Block, blk ∈ generate_cube false 1 2 3 2 3 4 (.pStr "stone") ↔
        1 ≤ blk.x ∧ blk.x < 1 + 2 ∧ 2 ≤ blk.y ∧ blk.y < 2 + 3 ∧
          3 ≤ blk.z ∧ blk.z < 3 + 4 ∧ blk.block_type = .pStr "stone" :=
  solid_cube_card_and_coverage 1 2 3 2 3 4 (.pStr "stone")
    (by decide) (by decide) (by decide)

/-! ## C3: hollow cube shell cardinality and degenerate dimensions -/

lemma pyRange_eq_cons {lo hi : Int} (h : lo < hi) :
    pyRange lo hi = lo :: pyRange (lo + 1) hi := by
  unfold pyRange
  have h1 : (hi - lo).toNat = (hi - (lo + 1)).toNat + 1 := by omega
  rw [h1, List.range_succ_eq_map]
  simp only [List.map_cons, Nat.cast_zero, add_zero, List.map_map]
  refine congrArg _ (List.map_congr_left fun n _ => ?_)
  simp only [Function.comp_apply, Nat.succ_eq_add_one]
  push_cast
  ring

lemma pyRange_append_last {lo hi : Int} (h : lo < hi) :
    pyRange lo hi = pyRange lo (hi - 1) ++ [hi - 1] := by
  unfold pyRange
  have h1 : (hi - lo).toNat = (hi - 1 - lo).toNat + 1 := by omega
  rw [h1, List.range_succ, List.map_append]
  simp only [List.map_cons, List.map_nil]
  have h2 : lo + ((hi - 1 - lo).toNat : ℤ) = hi - 1 := by omega
  rw [h2]

/-- Sum over `range(b)` of a quantity that takes the value `u` on the two
boundary indices and `v` in the interior. -/
lemma sum_pyRange_ite {b : Int} (hb : 2 ≤ b) (u v : ℕ) :
    ((pyRange 0 b).map
      (fun j => if j = 0 ∨ j = b - 1 then u else v)).sum =
      2 * u + (b - 2).toNat * v := by
  rw [pyRange_eq_cons (show (0:ℤ) < b by omega)]
  simp only [zero_add]
  rw [pyRange_append_last (show (1:ℤ) < b by omega)]
  rw [List.map_cons, List.map_append, List.map_cons, List.map_nil,
    List.sum_cons, List.sum_append, List.sum_cons, List.sum_nil]
  rw [if_pos (Or.inl rfl), if_pos (Or.inr rfl)]
  have hmid : (pyRange 1 (b - 1)).map
      (fun j => if j = 0 ∨ j = b - 1 then u else v) =
      (pyRange 1 (b - 1)).map (fun _ => v) := by
    refine List.map_congr_left fun t ht => ?_
    rw [mem_pyRange] at ht
    exact if_neg (by omega)
  rw [hmid, List.map_const', List.sum_replicate, smul_eq_mul, length_pyRange]
  have : (b - 1 - 1).toNat = (b - 2).toNat := by omega
  rw [this]
  ring

/-- The boundary filter over `range(c)` keeps exactly the two indices
`0` and `c - 1` when `c ≥ 2`. -/
lemma filter_boundary_length {c : Int} (hc : 2 ≤ c) :
    ((pyRange 0 c).filter
      (fun k => decide (k = 0 ∨ k = c - 1))).length = 2 := by
  rw [pyRange_eq_cons (show (0:ℤ) < c by omega)]
  simp only [zero_add]
  rw [pyRange_append_last (show (1:ℤ) < c by omega)]
  rw [List.filter_cons, List.filter_append]
  have hmid : (pyRange 1 (c - 1)).filter
      (fun k => decide (k = 0 ∨ k = c - 1)) = [] := by
    refine List.filter_eq_nil_iff.mpr fun t ht => ?_
    rw [mem_pyRange] at ht
    simp only [decide_eq_true_eq]
    push_neg
    omega
  have hlast : ([c - 1] : List Int).filter
      (fun k => decide (k = 0 ∨ k = c - 1)) = [c - 1] := by
    simp
  rw [hmid, hlast]
  simp

/-- A `filterMap` whose guard holds on every element of the list is the
plain map. -/
lemma length_filterMap_ite_of_all {α β : Type} (p : α → Prop)
    [DecidablePred p] (f : α → β) (l : List α) (h : ∀ a ∈ l, p a) :
    (l.filterMap fun a => if p a then some (f a) else none).length =
      l.length := by
  rw [List.filterMap_congr (g := fun a => some (f a))
    fun a ha => if_pos (h a ha)]
  rw [show (fun a => some (f a)) = some ∘ f from rfl, List.filterMap_eq_map,
    List.length_map]

/-- Propositional-guard version of `filterMap_ite_eq_map_filter`. -/
lemma filterMap_ite_prop {α β : Type} (p : α → Prop) [DecidablePred p]
    (f : α → β) (l : List α) :
    (l.filterMap fun a => if p a then some (f a) else none) =
      (l.filter fun a => decide (p a)).map f := by
  induction l with
  | nil => rfl
  | cons a l ih =>
    by_cases h : p a <;>
      simp [List.filterMap_cons, List.filter_cons, h, ih]

/-- With `hollow = True`, the cell filter reduces to the shell test. -/
lemma generate_cube_true (x y z a b c : Int) (bt : PVal) :
    generate_cube true x y z a b c bt =
      (pyRange 0 a).flatMap fun i =>
        (pyRange 0 b).flatMap fun j =>
          (pyRange 0 c).filterMap fun k =>
            if i = 0 ∨ i = a - 1 ∨ j = 0 ∨ j = b - 1 ∨ k = 0 ∨ k = c - 1 then
              some ⟨x + i, y + j, z + k, bt⟩
            else none := by
  simp [generate_cube]

lemma length_generate_cube_true {a b c : Int} (x y z : Int) (bt : PVal)
    (ha : 3 ≤ a) (hb : 3 ≤ b) (hc : 3 ≤ c) :
    ((generate_cube true x y z a b c bt).length : Int) =
      a * b * c - (a - 2) * (b - 2) * (c - 2) := by
  have hin_all : ∀ i j : Int, (i = 0 ∨ i = a - 1 ∨ j = 0 ∨ j = b - 1) →
      ((pyRange 0 c).filterMap fun k =>
        if i = 0 ∨ i = a - 1 ∨ j = 0 ∨ j = b - 1 ∨ k = 0 ∨ k = c - 1 then
          some (⟨x + i, y + j, z + k, bt⟩ : Block)
        else none).length = c.toNat := by
    intro i j hbnd
    rw [length_filterMap_ite_of_all _ _ _ (fun k _ => by tauto),
      length_pyRange]
    simp
  have hin_int : ∀ i j : Int, ¬(i = 0 ∨ i = a - 1 ∨ j = 0 ∨ j = b - 1) →
      ((pyRange 0 c).filterMap fun k =>
        if i = 0 ∨ i = a - 1 ∨ j = 0 ∨ j = b - 1 ∨ k = 0 ∨ k = c - 1 then
          some (⟨x + i, y + j, z + k, bt⟩ : Block)
        else none).length = 2 := by
    intro i j hbnd
    have hiff : ∀ k : Int,
        (i = 0 ∨ i = a - 1 ∨ j = 0 ∨ j = b - 1 ∨ k = 0 ∨ k = c - 1) ↔
          (k = 0 ∨ k = c - 1) := fun k => by tauto
    rw [List.filterMap_congr (g := fun k =>
      if k = 0 ∨ k = c - 1 then
        some (⟨x + i, y + j, z + k, bt⟩ : Block) else none)
      (fun k _ => by simp only [hiff])]
    rw [filterMap_ite_prop, List.length_map]
    exact filter_boundary_length (by omega)
  have hmid_bnd : ∀ i : Int, (i = 0 ∨ i = a - 1) →
      ((pyRange 0 b).flatMap fun j =>
        (pyRange 0 c).filterMap fun k =>
          if i = 0 ∨ i = a - 1 ∨ j = 0 ∨ j = b - 1 ∨ k = 0 ∨ k = c - 1 then
            some (⟨x + i, y + j, z + k, bt⟩ : Block)
          else none).length = b.toNat * c.toNat := by
    intro i hib
    rw [length_flatMap_const _ _ c.toNat
      (fun j _ => hin_all i j (by tauto)), length_pyRange]
    simp
  have hmid_int : ∀ i : Int, ¬(i = 0 ∨ i = a - 1) →
      ((pyRange 0 b).flatMap fun j =>
        (pyRange 0 c).filterMap fun k =>
          if i = 0 ∨ i = a - 1 ∨ j = 0 ∨ j = b - 1 ∨ k = 0 ∨ k = c - 1 then
            some (⟨x + i, y + j, z + k, bt⟩ : Block)
          else none).length = 2 * c.toNat + (b - 2).toNat * 2 := by
    intro i hib
    rw [List.length_flatMap]
    have hcong : ∀ j ∈ pyRange 0 b,
        (List.length ∘ fun j =>
          (pyRange 0 c).filterMap fun k =>
            if i = 0 ∨ i = a - 1 ∨ j = 0 ∨ j = b - 1 ∨ k = 0 ∨ k = c - 1 then
              some (⟨x + i, y + j, z + k, bt⟩ : Block)
            else none) j =
          (fun j => if j = 0 ∨ j = b - 1 then c.toNat else 2) j := by
      intro j _
      simp only [Function.comp_apply]
      by_cases hjb : j = 0 ∨ j = b - 1
      · rw [if_pos hjb]
        exact hin_all i j (by tauto)
      · rw [if_neg hjb]
        exact hin_int i j (by tauto)
    rw [List.map_congr_left hcong, sum_pyRange_ite (by omega)]
  have key : (generate_cube true x y z a b c bt).length =
      2 * (b.toNat * c.toNat) +
        (a - 2).toNat * (2 * c.toNat + (b - 2).toNat * 2) := by
    rw [generate_cube_true, List.length_flatMap]
    have hcong : ∀ i ∈ pyRange 0 a,
        (List.length ∘ fun i =>
          (pyRange 0 b).flatMap fun j =>
            (pyRange 0 c).filterMap fun k =>
              if i = 0 ∨ i = a - 1 ∨ j = 0 ∨ j = b - 1 ∨ k = 0 ∨
                  k = c - 1 then
                some (⟨x + i, y + j, z + k, bt⟩ : Block)
              else none) i =
          (fun i => if i = 0 ∨ i = a - 1 then b.toNat * c.toNat
            else 2 * c.toNat + (b - 2).toNat * 2) i := by
      intro i _
      simp only [Function.comp_apply]
      by_cases hib : i = 0 ∨ i = a - 1
      · rw [if_pos hib]
        exact hmid_bnd i hib
      · rw [if_neg hib]
        exact hmid_int i hib
    rw [List.map_congr_left hcong, sum_pyRange_ite (by omega)]
  rw [key]
  push_cast [Int.toNat_of_nonneg (show (0:ℤ) ≤ a - 2 by omega),
    Int.toNat_of_nonneg (show (0:ℤ) ≤ b - 2 by omega),
    Int.toNat_of_nonneg (show (0:ℤ) ≤ c - 2 by omega),
    Int.toNat_of_nonneg (show (0:ℤ) ≤ b by omega),
    Int.toNat_of_nonneg (show (0:ℤ) ≤ c by omega)]
  ring

/-- When some dimension is below 2 every cell passes the shell test. -/
lemma generate_cube_degenerate {a b c : Int} (x y z : Int) (bt : PVal)
    (h : a < 2 ∨ b < 2 ∨ c < 2) :
    generate_cube true x y z a b c bt =
      generate_cube false x y z a b c bt := by
  unfold generate_cube
  refine List.flatMap_congr fun i hi => List.flatMap_congr fun j hj =>
    List.filterMap_congr fun k hk => ?_
  rw [mem_pyRange] at hi hj hk
  have hshell : (i = 0 ∨ i = a - 1 ∨ j = 0 ∨ j = b - 1 ∨ k = 0 ∨ k = c - 1) := by
    rcases h with h | h | h
    · exact Or.inl (by omega)
    · exact Or.inr (Or.inr (Or.inl (by omega)))
    · exact Or.inr (Or.inr (Or.inr (Or.inr (Or.inl (by omega)))))
  simp [hshell]

/-- C3: for `a, b, c ≥ 3` the hollow cube has exactly
`a·b·c − (a−2)·(b−2)·(c−2)` blocks; any dimension `< 2` makes the hollow
cube coincide with the solid cube; the 3×3×3 hollow cube at the origin
has 26 blocks. -/
theorem hollow_cube_card_and_degenerate (x y z a b c : Int) (bt : PVal) :
    (3 ≤ a → 3 ≤ b → 3 ≤ c →
      ((generate_cube true x y z a b c bt).length : Int) =
        a * b * c - (a - 2) * (b - 2) * (c - 2)) ∧
    (a < 2 ∨ b < 2 ∨ c < 2 →
      generate_cube true x y z a b c bt =
        generate_cube false x y z a b c bt) ∧
    (generate_cube true 0 0 0 3 3 3 (.pStr "stone")).length = 26 := by
  refine ⟨fun ha hb hc => length_generate_cube_true x y z bt ha hb hc,
    fun h => generate_cube_degenerate x y z bt h, by decide⟩

theorem hollow_cube_card_and_degenerate_witness :
    (((generate_cube true 0 0 0 3 4 5 (.pStr "s")).length : Int) =
        3 * 4 * 5 - (3 - 2) * (4 - 2) * (5 - 2)) ∧
      generate_cube true 7 8 9 1 4 4 (.pStr "s") =
        generate_cube false 7 8 9 1 4 4 (.pStr "s") :=
  ⟨(hollow_cube_card_and_degenerate 0 0 0 3 4 5 (.pStr "s")).1
      (by decide) (by decide) (by decide),
    (hollow_cube_card_and_degenerate 7 8 9 1 4 4 (.pStr "s")).2.1
      (Or.inl (by decide))⟩

/-! ## C10: nonpositive-extent edge cases -/

lemma generate_cube_nonpos {a b c : Int} (hollow : Bool) (x y z : Int)
    (bt : PVal) (h : a ≤ 0 ∨ b ≤ 0 ∨ c ≤ 0) :
    generate_cube hollow x y z a b c bt = [] := by
  unfold generate_cube
  rcases h with h | h | h
  · rw [pyRange_eq_nil h]
    rfl
  · refine List.flatMap_eq_nil_iff.mpr fun i _ => ?_
    rw [pyRange_eq_nil h]
    rfl
  · refine List.flatMap_eq_nil_iff.mpr fun i _ => ?_
    refine List.flatMap_eq_nil_iff.mpr fun j _ => ?_
    rw [pyRange_eq_nil h]
    rfl

lemma generate_sphere_neg {r : Int} (hollow : Bool) (x y z : Int)
    (bt : PVal) (h : r < 0) :
    generate_sphere hollow x y z r bt = [] := by
  unfold generate_sphere
  rw [pyRange_eq_nil (by omega)]
  rfl

lemma generate_circle_neg {r : Int} (hollow : Bool) (x y z : Int)
    (bt : PVal) (h : r < 0) :
    generate_circle hollow x y z r bt = [] := by
  unfold generate_circle
  rw [pyRange_eq_nil (by omega)]
  rfl

lemma generate_cylinder_nonpos {r h : Int} (hollow : Bool) (x y z : Int)
    (bt : PVal) (hrh : r < 0 ∨ h ≤ 0) :
    generate_cylinder hollow x y z r h bt = [] := by
  unfold generate_cylinder
  rcases hrh with hr | hh
  · refine List.flatMap_eq_nil_iff.mpr fun j _ => ?_
    rw [pyRange_eq_nil (by omega)]
    rfl
  · rw [pyRange_eq_nil hh]
    rfl

lemma pyRange_zero_one : pyRange 0 1 = [0] := by decide

lemma generate_sphere_zero_solid (x y z : Int) (bt : PVal) :
    generate_sphere false x y z 0 bt = [⟨x, y, z, bt⟩] := by
  unfold generate_sphere
  norm_num [pyRange_zero_one, List.filterMap_cons, List.filterMap_nil]

lemma generate_sphere_zero_hollow (x y z : Int) (bt : PVal) :
    generate_sphere true x y z 0 bt = [] := by
  unfold generate_sphere
  norm_num [pyRange_zero_one, List.filterMap_cons, List.filterMap_nil]

/-- C10: nonpositive-extent edge cases of the rasterizers: a cube with
any size `≤ 0` is empty; sphere, circle and cylinder with negative radius
are empty (cylinder also for height `≤ 0`); a radius-0 solid sphere is the
single center block while a radius-0 hollow sphere is empty. -/
theorem nonpositive_extent_edge_cases (x y z : Int) (bt : PVal)
    (hollow : Bool) :
    (∀ a b c : Int, a ≤ 0 ∨ b ≤ 0 ∨ c ≤ 0 →
      generate_cube hollow x y z a b c bt = []) ∧
    (∀ r : Int, r < 0 → generate_sphere hollow x y z r bt = []) ∧
    (∀ r : Int, r < 0 → generate_circle hollow x y z r bt = []) ∧
    (∀ r h : Int, r < 0 ∨ h ≤ 0 →
      generate_cylinder hollow x y z r h bt = []) ∧
    generate_sphere false x y z 0 bt = [⟨x, y, z, bt⟩] ∧
    generate_sphere true x y z 0 bt = [] :=
  ⟨fun _ _ _ h => generate_cube_nonpos hollow x y z bt h,
   fun _ h => generate_sphere_neg hollow x y z bt h,
   fun _ h => generate_circle_neg hollow x y z bt h,
   fun _ _ h => generate_cylinder_nonpos hollow x y z bt h,
   generate_sphere_zero_solid x y z bt,
   generate_sphere_zero_hollow x y z bt⟩

theorem nonpositive_extent_edge_cases_witness :
    generate_cube false 0 0 0 (-1) 2 2 (.pStr "s") = [] ∧
    generate_sphere true 0 0 0 (-3) (.pStr "s") = [] ∧
    generate_circle false 1 1 1 (-1) (.pStr "s") = [] ∧
    generate_cylinder false 0 0 0 2 0 (.pStr "s") = [] ∧
    generate_sphere false 5 6 7 0 (.pStr "s") = [⟨5, 6, 7, .pStr "s"⟩] ∧
    generate_sphere true 5 6 7 0 (.pStr "s") = [] :=
  ⟨(nonpositive_extent_edge_cases 0 0 0 (.pStr "s") false).1 (-1) 2 2
      (Or.inl (by decide)),
   (nonpositive_extent_edge_cases 0 0 0 (.pStr "s") true).2.1 (-3)
      (by decide),
   (nonpositive_extent_edge_cases 1 1 1 (.pStr "s") false).2.2.1 (-1)
      (by decide),
   (nonpositive_extent_edge_cases 0 0 0 (.pStr "s") false).2.2.2.1 2 0
      (Or.inr (by decide)),
   (nonpositive_extent_edge_cases 5 6 7 (.pStr "s") false).2.2.2.2.1,
   (nonpositive_extent_edge_cases 5 6 7 (.pStr "s") false).2.2.2.2.2⟩

/-! ## C7: sphere symmetry -/

/-- Whether the offset `(i, j, k)` from the center receives a block from
the sphere rasterizer, characterized arithmetically. -/
lemma sphere_offset_mem {hollow : Bool} {x y z r i j k : Int} {bt : PVal} :
    (⟨x + i, y + j, z + k, bt⟩ : Block) ∈ generate_sphere hollow x y z r bt ↔
      (-r ≤ i ∧ i ≤ r ∧ -r ≤ j ∧ j ≤ r ∧ -r ≤ k ∧ k ≤ r ∧
        i * i + j * j + k * k ≤ r * r ∧
        (hollow = true → (r - 1) * (r - 1) < i * i + j * j + k * k)) := by
  unfold generate_sphere
  simp only [List.mem_flatMap, List.mem_filterMap, mem_pyRange]
  constructor
  · rintro ⟨i', hi', j', hj', k', hk', h⟩
    split_ifs at h with h1 h2
    · simp only [Option.some.injEq, Block.mk.injEq] at h
      obtain ⟨hx, hy, hz, -⟩ := h
      have hii : i' = i := by omega
      have hjj : j' = j := by omega
      have hkk : k' = k := by omega
      subst hii hjj hkk
      simp only [Bool.or_eq_true, Bool.not_eq_true', decide_eq_true_eq] at h2
      refine ⟨by omega, by omega, by omega, by omega, by omega, by omega,
        h1, fun hh => ?_⟩
      rcases h2 with h2 | h2
      · rw [hh] at h2
        cases h2
      · exact h2
  · rintro ⟨h1, h2, h3, h4, h5, h6, h7, h8⟩
    refine ⟨i, by omega, j, by omega, k, by omega, ?_⟩
    have hcond : hollow = false ∨ (r - 1) * (r - 1) < i * i + j * j + k * k := by
      cases hollow with
      | false => exact Or.inl rfl
      | true => exact Or.inr (h8 rfl)
    split_ifs with hA
    · rfl
    all_goals
      simp only [Bool.or_eq_true, Bool.not_eq_true', decide_eq_true_eq] at *
      tauto

/-- C7: the set of center-relative offsets populated by the sphere
rasterizer is invariant under every permutation of the three axes and
under sign flip of each axis. -/
theorem sphere_symmetry (hollow : Bool) (x y z r : Int) (bt : PVal)
    (i j k : Int) :
    ((⟨x + i, y + j, z + k, bt⟩ : Block) ∈
        generate_sphere hollow x y z r bt ↔
      (⟨x + i, y + k, z + j, bt⟩ : Block) ∈
        generate_sphere hollow x y z r bt) ∧
    ((⟨x + i, y + j, z + k, bt⟩ : Block) ∈
        generate_sphere hollow x y z r bt ↔
      (⟨x + j, y + i, z + k, bt⟩ : Block) ∈
        generate_sphere hollow x y z r bt) ∧
    ((⟨x + i, y + j, z + k, bt⟩ : Block) ∈
        generate_sphere hollow x y z r bt ↔
      (⟨x + j, y + k, z + i, bt⟩ : Block) ∈
        generate_sphere hollow x y z r bt) ∧
    ((⟨x + i, y + j, z + k, bt⟩ : Block) ∈
        generate_sphere hollow x y z r bt ↔
      (⟨x + k, y + i, z + j, bt⟩ : Block) ∈
        generate_sphere hollow x y z r bt) ∧
    ((⟨x + i, y + j, z + k, bt⟩ : Block) ∈
        generate_sphere hollow x y z r bt ↔
      (⟨x + k, y + j, z + i, bt⟩ : Block) ∈
        generate_sphere hollow x y z r bt) ∧
    ((⟨x + i, y + j, z + k, bt⟩ : Block) ∈
        generate_sphere hollow x y z r bt ↔
      (⟨x + -i, y + j, z + k, bt⟩ : Block) ∈
        generate_sphere hollow x y z r bt) ∧
    ((⟨x + i, y + j, z + k, bt⟩ : Block) ∈
        generate_sphere hollow x y z r bt ↔
      (⟨x + i, y + -j, z + k, bt⟩ : Block) ∈
        generate_sphere hollow x y z r bt) ∧
    ((⟨x + i, y + j, z + k, bt⟩ : Block) ∈
        generate_sphere hollow x y z r bt ↔
      (⟨x + i, y + j, z + -k, bt⟩ : Block) ∈
        generate_sphere hollow x y z r bt) := by
  refine ⟨?_, ?_, ?_, ?_, ?_, ?_, ?_, ?_⟩ <;>
    rw [sphere_offset_mem, sphere_offset_mem] <;>
    constructor <;>
    rintro ⟨h1, h2, h3, h4, h5, h6, h7, h8⟩ <;>
    refine ⟨by omega, by omega, by omega, by omega, by omega, by omega,
      by linarith, fun hh => by have := h8 hh; linarith⟩

/-! ## C8: pyramid top layer -/

/-- While every remaining layer has positive size, the `break` of the
pyramid loop never fires and the loop is the concatenation of its
layers. -/
lemma pyramidLoop_unroll (x y z base_size : Int) (bt : PVal) (n : Nat) :
    ∀ j : Int, (∀ m : Nat, m < n → 0 < base_size - 2 * (j + m)) →
    pyramidLoop x y z base_size bt n j =
      (List.range n).flatMap fun m =>
        pyramidLayer x y z bt (j + m) (base_size - 2 * (j + m)) := by
  induction n with
  | zero => intro j _; rfl
  | succ n ih =>
    intro j hpos
    have h0 : 0 < base_size - 2 * j := by
      have := hpos 0 (by omega)
      push_cast at this
      omega
    rw [pyramidLoop]
    rw [if_neg (by omega)]
    rw [ih (j + 1) fun m hm => by
      have := hpos (m + 1) (by omega)
      push_cast at this ⊢
      omega]
    rw [List.range_succ_eq_map, List.flatMap_cons, List.flatMap_map]
    refine congrArg₂ _ ?_ (List.flatMap_congr fun m _ => ?_)
    · norm_num
    · simp only [Function.comp_apply, Nat.succ_eq_add_one]
      have harg : j + 1 + (m : ℤ) = j + ((m : ℕ) + 1 : ℤ) := by ring
      rw [harg]
      rfl

/-- For `base_size ≥ 1`, the pyramid is the concatenation of the layers
`m = 0, …, height-1`, each of size `base_size - 2m`. -/
lemma generate_pyramid_eq {base_size : Int} (x y z : Int) (bt : PVal) :
    generate_pyramid x y z base_size bt =
      (List.range ((base_size + 1).fdiv 2).toNat).flatMap fun m =>
        pyramidLayer x y z bt m (base_size - 2 * m) := by
  unfold generate_pyramid
  have hf : (base_size + 1).fdiv 2 = (base_size + 1) / 2 :=
    Int.fdiv_eq_ediv _ (by norm_num)
  rw [pyramidLoop_unroll x y z base_size bt _ 0 fun m hm => by
    rw [hf] at hm
    omega]
  exact List.flatMap_congr fun m _ => by rw [zero_add]

lemma pyramidLayer_y {x y z j L : Int} {bt : PVal} {blk : Block}
    (h : blk ∈ pyramidLayer x y z bt j L) : blk.y = y + j := by
  unfold pyramidLayer at h
  simp only [List.mem_flatMap, List.mem_map] at h
  obtain ⟨i, _, k, _, rfl⟩ := h
  rfl

/-- A layer of size 1 is the single corner block of its level. -/
lemma pyramidLayer_one (x y z j : Int) (bt : PVal) :
    pyramidLayer x y z bt j 1 = [⟨x + j, y + j, z + j, bt⟩] := by
  unfold pyramidLayer
  rw [show (1 : ℤ) = 0 + 1 by rfl, pyRange_eq_cons (by omega)]
  norm_num [pyRange_eq_nil]

/-- C8: for `base_size ≥ 1` with `height = (base_size+1) // 2`, every
block lies in layers `y … y+height-1`; the topmost generated layer is the
layer of size `base_size - 2*(height-1)`; that size is 1 exactly when
`base_size` is odd, in which case the top layer is the single apex block
`(x+height-1, y+height-1, z+height-1)`, and the size is 2 when
`base_size` is even. -/
theorem pyramid_top_layer (x y z base_size : Int) (bt : PVal)
    (hb : 1 ≤ base_size) :
    (∀ blk ∈ generate_pyramid x y z base_size bt,
      blk.y ≤ y + (base_size + 1).fdiv 2 - 1) ∧
    ((generate_pyramid x y z base_size bt).filter
        (fun blk => blk.y = y + (base_size + 1).fdiv 2 - 1) =
      pyramidLayer x y z bt ((base_size + 1).fdiv 2 - 1)
        (base_size - 2 * ((base_size + 1).fdiv 2 - 1))) ∧
    (base_size - 2 * ((base_size + 1).fdiv 2 - 1) = 1 ↔ Odd base_size) ∧
    (Odd base_size →
      (generate_pyramid x y z base_size bt).filter
          (fun blk => blk.y = y + (base_size + 1).fdiv 2 - 1) =
        [⟨x + (base_size + 1).fdiv 2 - 1, y + (base_size + 1).fdiv 2 - 1,
          z + (base_size + 1).fdiv 2 - 1, bt⟩]) ∧
    (Even base_size → base_size - 2 * ((base_size + 1).fdiv 2 - 1) = 2) := by
  have hf : (base_size + 1).fdiv 2 = (base_size + 1) / 2 :=
    Int.fdiv_eq_ediv _ (by norm_num)
  have hH1 : 1 ≤ (base_size + 1).fdiv 2 := by rw [hf]; omega
  have hHtop : (((base_size + 1).fdiv 2).toNat - 1 : ℕ) =
      ((base_size + 1).fdiv 2 - 1).toNat := by omega
  have hcast : ((((base_size + 1).fdiv 2).toNat - 1 : ℕ) : ℤ) =
      (base_size + 1).fdiv 2 - 1 := by omega
  have hbound : ∀ blk ∈ generate_pyramid x y z base_size bt,
      blk.y ≤ y + (base_size + 1).fdiv 2 - 1 := by
    intro blk h
    rw [generate_pyramid_eq x y z bt] at h
    simp only [List.mem_flatMap, List.mem_range] at h
    obtain ⟨m, hm, hmem⟩ := h
    have := pyramidLayer_y hmem
    omega
  have hfilter : (generate_pyramid x y z base_size bt).filter
      (fun blk => blk.y = y + (base_size + 1).fdiv 2 - 1) =
      pyramidLayer x y z bt ((base_size + 1).fdiv 2 - 1)
        (base_size - 2 * ((base_size + 1).fdiv 2 - 1)) := by
    rw [generate_pyramid_eq x y z bt]
    have hsplit : ((base_size + 1).fdiv 2).toNat =
        (((base_size + 1).fdiv 2).toNat - 1) + 1 := by omega
    rw [hsplit, List.range_succ, List.flatMap_append, List.filter_append,
      List.flatMap_cons, List.flatMap_nil, List.append_nil]
    have hfirst : ((List.range (((base_size + 1).fdiv 2).toNat - 1)).flatMap
        fun m => pyramidLayer x y z bt m
          (base_size - 2 * m)).filter
            (fun blk => blk.y = y + (base_size + 1).fdiv 2 - 1) = [] := by
      refine List.filter_eq_nil_iff.mpr fun blk hblk => ?_
      simp only [List.mem_flatMap, List.mem_range] at hblk
      obtain ⟨m, hm, hmem⟩ := hblk
      have := pyramidLayer_y hmem
      simp only [decide_eq_true_eq]
      omega
    have hlast : (pyramidLayer x y z bt
        ((((base_size + 1).fdiv 2).toNat - 1 : ℕ) : ℤ)
        (base_size - 2 * ((((base_size + 1).fdiv 2).toNat - 1 : ℕ) : ℤ))).filter
          (fun blk => blk.y = y + (base_size + 1).fdiv 2 - 1) =
        pyramidLayer x y z bt
          ((((base_size + 1).fdiv 2).toNat - 1 : ℕ) : ℤ)
          (base_size - 2 * ((((base_size + 1).fdiv 2).toNat - 1 : ℕ) : ℤ)) := by
      refine List.filter_eq_self.mpr fun blk hblk => ?_
      have := pyramidLayer_y hblk
      simp only [decide_eq_true_eq]
      omega
    rw [hfirst, hlast, List.nil_append, hcast]
  refine ⟨hbound, hfilter, ?_, fun hodd => ?_, fun heven => ?_⟩
  · rw [hf, Int.odd_iff]
    omega
  · rw [hfilter]
    have h1 : base_size - 2 * ((base_size + 1).fdiv 2 - 1) = 1 := by
      rw [hf]
      rw [Int.odd_iff] at hodd
      omega
    rw [h1, pyramidLayer_one]
    simp only [List.cons.injEq, Block.mk.injEq, and_true]
    exact ⟨by ring, by ring, by ring⟩
  · rw [hf]
    rw [Int.even_iff] at heven
    omega

theorem pyramid_top_layer_witness :
    ((∀ blk ∈ generate_pyramid 0 0 0 5 (.pStr "s"),
      blk.y ≤ 0 + (5 + 1 : ℤ).fdiv 2 - 1) ∧
    ((generate_pyramid 0 0 0 5 (.pStr "s")).filter
        (fun blk => blk.y = 0 + (5 + 1 : ℤ).fdiv 2 - 1) =
      pyramidLayer 0 0 0 (.pStr "s") ((5 + 1 : ℤ).fdiv 2 - 1)
        (5 - 2 * ((5 + 1 : ℤ).fdiv 2 - 1))) ∧
    (5 - 2 * ((5 + 1 : ℤ).fdiv 2 - 1) = 1 ↔ Odd (5 : ℤ)) ∧
    (Odd (5 : ℤ) →
      (generate_pyramid 0 0 0 5 (.pStr "s")).filter
          (fun blk => blk.y = 0 + (5 + 1 : ℤ).fdiv 2 - 1) =
        [⟨0 + (5 + 1 : ℤ).fdiv 2 - 1, 0 + (5 + 1 : ℤ).fdiv 2 - 1,
          0 + (5 + 1 : ℤ).fdiv 2 - 1, .pStr "s"⟩]) ∧
    (Even (5 : ℤ) → 5 - 2 * ((5 + 1 : ℤ).fdiv 2 - 1) = 2)) :=
  pyramid_top_layer 0 0 0 5 (.pStr "s") (by decide)

/-! ## C6: bounding box -/

lemma foldl_min_le_init {α : Type} (sel : α → Int) (l : List α) :
    ∀ i : Int, l.foldl (fun a c => min a (sel c)) i ≤ i := by
  induction l with
  | nil => intro i; exact le_refl i
  | cons b l ih =>
    intro i
    exact le_trans (ih (min i (sel b))) (min_le_left _ _)

lemma foldl_min_le_sel {α : Type} (sel : α → Int) (l : List α) :
    ∀ i : Int, ∀ a ∈ l, l.foldl (fun a c => min a (sel c)) i ≤ sel a := by
  induction l with
  | nil => intro i a ha; cases ha
  | cons b l ih =>
    intro i a ha
    rcases List.mem_cons.mp ha with rfl | ha
    · exact le_trans (foldl_min_le_init sel l _) (min_le_right _ _)
    · exact ih _ a ha

lemma foldl_min_attained {α : Type} (sel : α → Int) (l : List α) :
    ∀ i : Int, l.foldl (fun a c => min a (sel c)) i = i ∨
      ∃ a ∈ l, l.foldl (fun a c => min a (sel c)) i = sel a := by
  induction l with
  | nil => intro i; exact Or.inl rfl
  | cons b l ih =>
    intro i
    rcases ih (min i (sel b)) with h | ⟨a, ha, h⟩
    · rcases min_cases i (sel b) with ⟨hm, -⟩ | ⟨hm, -⟩
      · exact Or.inl (by rw [List.foldl_cons, h, hm])
      · exact Or.inr ⟨b, List.mem_cons_self b l, by rw [List.foldl_cons, h, hm]⟩
    · exact Or.inr ⟨a, List.mem_cons_of_mem b ha, by rw [List.foldl_cons, h]⟩

lemma foldl_max_ge_init {α : Type} (sel : α → Int) (l : List α) :
    ∀ i : Int, i ≤ l.foldl (fun a c => max a (sel c)) i := by
  induction l with
  | nil => intro i; exact le_refl i
  | cons b l ih =>
    intro i
    exact le_trans (le_max_left _ _) (ih (max i (sel b)))

lemma foldl_max_ge_sel {α : Type} (sel : α → Int) (l : List α) :
    ∀ i : Int, ∀ a ∈ l, sel a ≤ l.foldl (fun a c => max a (sel c)) i := by
  induction l with
  | nil => intro i a ha; cases ha
  | cons b l ih =>
    intro i a ha
    rcases List.mem_cons.mp ha with rfl | ha
    · exact le_trans (le_max_right _ _) (foldl_max_ge_init sel l _)
    · exact ih _ a ha

lemma foldl_max_attained {α : Type} (sel : α → Int) (l : List α) :
    ∀ i : Int, l.foldl (fun a c => max a (sel c)) i = i ∨
      ∃ a ∈ l, l.foldl (fun a c => max a (sel c)) i = sel a := by
  induction l with
  | nil => intro i; exact Or.inl rfl
  | cons b l ih =>
    intro i
    rcases ih (max i (sel b)) with h | ⟨a, ha, h⟩
    · rcases max_cases i (sel b) with ⟨hm, -⟩ | ⟨hm, -⟩
      · exact Or.inl (by rw [List.foldl_cons, h, hm])
      · exact Or.inr ⟨b, List.mem_cons_self b l, by rw [List.foldl_cons, h, hm]⟩
    · exact Or.inr ⟨a, List.mem_cons_of_mem b ha, by rw [List.foldl_cons, h]⟩

/-- C6: for a nonempty block sequence, `bounding_box` bounds every
block's coordinates, each of the six extremes is attained by some block,
and each dimension equals `max - min + 1`; the empty sequence gives the
all-zero record rather than an error. -/
theorem bounding_box_correct (blocks : List Block) :
    (blocks ≠ [] →
      (∀ blk ∈ blocks,
        (bounding_box blocks).min_x ≤ blk.x ∧
          blk.x ≤ (bounding_box blocks).max_x ∧
        (bounding_box blocks).min_y ≤ blk.y ∧
          blk.y ≤ (bounding_box blocks).max_y ∧
        (bounding_box blocks).min_z ≤ blk.z ∧
          blk.z ≤ (bounding_box blocks).max_z) ∧
      ((∃ blk ∈ blocks, blk.x = (bounding_box blocks).min_x) ∧
       (∃ blk ∈ blocks, blk.y = (bounding_box blocks).min_y) ∧
       (∃ blk ∈ blocks, blk.z = (bounding_box blocks).min_z) ∧
       (∃ blk ∈ blocks, blk.x = (bounding_box blocks).max_x) ∧
       (∃ blk ∈ blocks, blk.y = (bounding_box blocks).max_y) ∧
       (∃ blk ∈ blocks, blk.z = (bounding_box blocks).max_z)) ∧
      ((bounding_box blocks).width =
          (bounding_box blocks).max_x - (bounding_box blocks).min_x + 1 ∧
       (bounding_box blocks).height =
          (bounding_box blocks).max_y - (bounding_box blocks).min_y + 1 ∧
       (bounding_box blocks).depth =
          (bounding_box blocks).max_z - (bounding_box blocks).min_z + 1)) ∧
    (blocks = [] → bounding_box blocks = ⟨0, 0, 0, 0, 0, 0, 0, 0, 0⟩) := by
  cases blocks with
  | nil => exact ⟨fun h => absurd rfl h, fun _ => rfl⟩
  | cons b rest =>
    refine ⟨fun _ => ⟨?_, ?_, ?_⟩, fun h => by cases h⟩
    · intro blk hblk
      rcases List.mem_cons.mp hblk with rfl | hblk
      · exact ⟨foldl_min_le_init _ _ _, foldl_max_ge_init _ _ _,
          foldl_min_le_init _ _ _, foldl_max_ge_init _ _ _,
          foldl_min_le_init _ _ _, foldl_max_ge_init _ _ _⟩
      · exact ⟨foldl_min_le_sel _ _ _ blk hblk, foldl_max_ge_sel _ _ _ blk hblk,
          foldl_min_le_sel _ _ _ blk hblk, foldl_max_ge_sel _ _ _ blk hblk,
          foldl_min_le_sel _ _ _ blk hblk, foldl_max_ge_sel _ _ _ blk hblk⟩
    · refine ⟨?_, ?_, ?_, ?_, ?_, ?_⟩
      · rcases foldl_min_attained Block.x rest b.x with h | ⟨a, ha, h⟩
        · exact ⟨b, List.mem_cons_self b rest, h.symm⟩
        · exact ⟨a, List.mem_cons_of_mem b ha, h.symm⟩
      · rcases foldl_min_attained Block.y rest b.y with h | ⟨a, ha, h⟩
        · exact ⟨b, List.mem_cons_self b rest, h.symm⟩
        · exact ⟨a, List.mem_cons_of_mem b ha, h.symm⟩
      · rcases foldl_min_attained Block.z rest b.z with h | ⟨a, ha, h⟩
        · exact ⟨b, List.mem_cons_self b rest, h.symm⟩
        · exact ⟨a, List.mem_cons_of_mem b ha, h.symm⟩
      · rcases foldl_max_attained Block.x rest b.x with h | ⟨a, ha, h⟩
        · exact ⟨b, List.mem_cons_self b rest, h.symm⟩
        · exact ⟨a, List.mem_cons_of_mem b ha, h.symm⟩
      · rcases foldl_max_attained Block.y rest b.y with h | ⟨a, ha, h⟩
        · exact ⟨b, List.mem_cons_self b rest, h.symm⟩
        · exact ⟨a, List.mem_cons_of_mem b ha, h.symm⟩
      · rcases foldl_max_attained Block.z rest b.z with h | ⟨a, ha, h⟩
        · exact ⟨b, List.mem_cons_self b rest, h.symm⟩
        · exact ⟨a, List.mem_cons_of_mem b ha, h.symm⟩
    · exact ⟨rfl, rfl, rfl⟩

theorem bounding_box_correct_witness :
    (∀ blk ∈ [(⟨1, 2, 3, PVal.pStr "s"⟩ : Block), ⟨4, 0, 2, .pStr "t"⟩],
      (bounding_box [⟨1, 2, 3, .pStr "s"⟩, ⟨4, 0, 2, .pStr "t"⟩]).min_x ≤ blk.x ∧
        blk.x ≤ (bounding_box [⟨1, 2, 3, .pStr "s"⟩, ⟨4, 0, 2, .pStr "t"⟩]).max_x ∧
      (bounding_box [⟨1, 2, 3, .pStr "s"⟩, ⟨4, 0, 2, .pStr "t"⟩]).min_y ≤ blk.y ∧
        blk.y ≤ (bounding_box [⟨1, 2, 3, .pStr "s"⟩, ⟨4, 0, 2, .pStr "t"⟩]).max_y ∧
      (bounding_box [⟨1, 2, 3, .pStr "s"⟩, ⟨4, 0, 2, .pStr "t"⟩]).min_z ≤ blk.z ∧
        blk.z ≤ (bounding_box [⟨1, 2, 3, .pStr "s"⟩, ⟨4, 0, 2, .pStr "t"⟩]).max_z) ∧
    (bounding_box ([] : List Block) = ⟨0, 0, 0, 0, 0, 0, 0, 0, 0⟩) :=
  ⟨((bounding_box_correct [⟨1, 2, 3, .pStr "s"⟩, ⟨4, 0, 2, .pStr "t"⟩]).1
      (by simp)).1,
   (bounding_box_correct ([] : List Block)).2 rfl⟩

/-! ## Extent bounds of the integer rasterizers

The six generators that compute purely on integers never emit a block
outside the axis-aligned region implied by their parameters.  (The
seventh, `generate_line`, computes its walk in doubles; no such bound is
proved for it here.) -/

lemma generate_cube_extent {hollow : Bool} {x y z a b c : Int} {bt : PVal} :
    ∀ blk ∈ generate_cube hollow x y z a b c bt,
      x ≤ blk.x ∧ blk.x < x + a ∧ y ≤ blk.y ∧ blk.y < y + b ∧
        z ≤ blk.z ∧ blk.z < z + c := by
  intro blk h
  unfold generate_cube at h
  simp only [List.mem_flatMap, List.mem_filterMap, mem_pyRange] at h
  obtain ⟨i, hi, j, hj, k, hk, h⟩ := h
  split_ifs at h
  simp only [Option.some.injEq] at h
  subst h
  dsimp only
  omega

lemma generate_sphere_extent {hollow : Bool} {x y z r : Int} {bt : PVal} :
    ∀ blk ∈ generate_sphere hollow x y z r bt,
      x - r ≤ blk.x ∧ blk.x ≤ x + r ∧ y - r ≤ blk.y ∧ blk.y ≤ y + r ∧
        z - r ≤ blk.z ∧ blk.z ≤ z + r := by
  intro blk h
  unfold generate_sphere at h
  simp only [List.mem_flatMap, List.mem_filterMap, mem_pyRange] at h
  obtain ⟨i, hi, j, hj, k, hk, h⟩ := h
  split_ifs at h
  simp only [Option.some.injEq] at h
  subst h
  dsimp only
  omega

lemma generate_cylinder_extent {hollow : Bool} {x y z r hgt : Int}
    {bt : PVal} :
    ∀ blk ∈ generate_cylinder hollow x y z r hgt bt,
      x - r ≤ blk.x ∧ blk.x ≤ x + r ∧ y ≤ blk.y ∧ blk.y < y + hgt ∧
        z - r ≤ blk.z ∧ blk.z ≤ z + r := by
  intro blk h
  unfold generate_cylinder at h
  simp only [List.mem_flatMap, List.mem_filterMap, mem_pyRange] at h
  obtain ⟨j, hj, i, hi, k, hk, h⟩ := h
  split_ifs at h
  simp only [Option.some.injEq] at h
  subst h
  dsimp only
  omega

lemma generate_circle_extent {hollow : Bool} {x y z r : Int} {bt : PVal} :
    ∀ blk ∈ generate_circle hollow x y z r bt,
      x - r ≤ blk.x ∧ blk.x ≤ x + r ∧ blk.y = y ∧
        z - r ≤ blk.z ∧ blk.z ≤ z + r := by
  intro blk h
  unfold generate_circle at h
  simp only [List.mem_flatMap, List.mem_filterMap, mem_pyRange] at h
  obtain ⟨i, hi, k, hk, h⟩ := h
  split_ifs at h
  simp only [Option.some.injEq] at h
  subst h
  dsimp only
  omega

lemma generate_arch_extent {x y z r w : Int} {bt : PVal} :
    ∀ blk ∈ generate_arch x y z r w bt,
      x - r ≤ blk.x ∧ blk.x ≤ x + r ∧ y ≤ blk.y ∧ blk.y ≤ y + r ∧
        z ≤ blk.z ∧ blk.z ≤ z + w - 1 := by
  intro blk h
  unfold generate_arch at h
  simp only [List.mem_flatMap, List.mem_filterMap, mem_pyRange] at h
  obtain ⟨k, hk, i, hi, j, hj, h⟩ := h
  split_ifs at h
  simp only [Option.some.injEq] at h
  subst h
  dsimp only
  omega

lemma generate_pyramid_extent {x y z base_size : Int} {bt : PVal} :
    ∀ blk ∈ generate_pyramid x y z base_size bt,
      x ≤ blk.x ∧ blk.x < x + base_size ∧ y ≤ blk.y ∧
        blk.y < y + (base_size + 1).fdiv 2 ∧
        z ≤ blk.z ∧ blk.z < z + base_size := by
  intro blk h
  rw [generate_pyramid_eq x y z bt] at h
  simp only [List.mem_flatMap, List.mem_range] at h
  obtain ⟨m, hm, hmem⟩ := h
  unfold pyramidLayer at hmem
  simp only [List.mem_flatMap, List.mem_map, mem_pyRange] at hmem
  obtain ⟨i, hi, k, hk, h⟩ := hmem
  subst h
  dsimp only
  have hf : (base_size + 1).fdiv 2 = (base_size + 1) / 2 :=
    Int.fdiv_eq_ediv _ (by norm_num)
  rw [hf] at hm ⊢
  omega

/-! ## C1: dispatcher error behaviour -/

/-- C1 counterexample: the dispatcher is *not* total.  Passing `hollow`
in `args` to `hollow_cube` makes the lambda
`generate_cube(hollow=True, **kwargs)` raise `TypeError: got multiple
values`; a non-mapping `args` makes the `**` splat itself raise; passing
`size_x` to `single_block` collides the same way; and an unhashable
`tool` value (a list or dict) raises `TypeError: unhashable type` at the
membership test `tool_name in tool_map`.  None of these yields the empty
sequence. -/
theorem rasterize_dispatch_counterexample :
    generate_blocks_from_task
        (.dict (some (.pStr "hollow_cube"))
          (some (.mapping [("hollow", .pBool true)]))) =
      .error "TypeError: got multiple values for keyword argument hollow" ∧
    generate_blocks_from_task
        (.dict (some (.pStr "cube")) (some .notMapping)) =
      .error "TypeError: argument after ** must be a mapping" ∧
    generate_blocks_from_task
        (.dict (some (.pStr "single_block"))
          (some (.mapping [("size_x", .pInt 2)]))) =
      .error "TypeError: got multiple values for keyword argument size" ∧
    generate_blocks_from_task (.dict (some (.pUnhashable false)) none) =
      .error "TypeError: unhashable type" :=
  ⟨rfl, rfl, rfl, rfl⟩

/-- C1 (amended): a task that is not a dict, or whose `tool` value is
absent, a hashable non-string (int/bool), or a string other than the ten
recognized names, yields the empty block sequence without raising.  The
totality stops there: an unhashable `tool` value raises `TypeError` at
the dict-membership test, and recognized tools can raise on their `args`
(see the counterexample). -/
theorem rasterize_dispatch_amended :
    (generate_blocks_from_task .notDict = .ok []) ∧
    (∀ (tool : Option PVal) (args : Option PyArgs),
      (∀ b : Bool, tool ≠ some (.pUnhashable b)) →
      (∀ s : String, tool = some (.pStr s) → recognizedTool s = false) →
      generate_blocks_from_task (.dict tool args) = .ok []) ∧
    (∀ (b : Bool) (args : Option PyArgs),
      generate_blocks_from_task (.dict (some (.pUnhashable b)) args) =
        .error "TypeError: unhashable type") := by
  refine ⟨rfl, fun tool args hu h => ?_, fun b args => rfl⟩
  match tool with
  | none => rfl
  | some (.pInt n) => rfl
  | some (.pBool b) => rfl
  | some (.pUnhashable b) => exact absurd rfl (hu b)
  | some (.pStr s) =>
    have hs := h s rfl
    simp [generate_blocks_from_task, hs]

theorem rasterize_dispatch_amended_witness :
    generate_blocks_from_task
        (.dict (some (.pStr "house"))
          (some (.mapping [("x", .pInt 3)]))) = .ok [] :=
  rasterize_dispatch_amended.2.1 (some (.pStr "house"))
    (some (.mapping [("x", .pInt 3)]))
    (fun b hb => by cases hb)
    (fun s hs => by
      cases hs
      rfl)
